import Mathlib

/-!
Verification of the Kech waste-collection backend: shipment lifecycle engine
(shipment_tracker), telemetry intake (MQTT bin-status handler), route
optimizer and driver notification (go_backend), shallowly embedded in Lean.

Modelling conventions:
* Go structs are projected onto the fields the verified logic reads or
  writes; UUIDs become Nat identifiers, strings stay String.
* The SQL repositories are modelled as in-memory stores inside an explicit
  state record; each store operation that can fail in Go (an `error`
  return) is driven by an injection environment of Booleans, so both the
  failure-free and the failing executions are in the model.
* Go float64 coordinates become exact rationals; the transcendental
  haversine function is kept as an abstract distance oracle parameter
  `Dist` wherever an algorithm only compares or adds distances (a verbatim
  Float transcription of the source formula is given separately for
  reference).  Theorems quantify over the oracle, so they hold for the
  haversine instance in particular.
* Nontermination of the Go nearest-neighbour loop is made observable with
  an explicit fuel parameter: `none` means the fuel was exhausted before
  the loop condition became false.
-/

/-- ShipmentStatus from shipment_tracker/internal/models (dispute.go). -/
inductive ShipmentStatus where
  | created
  | price_confirmed
  | driver_assigned
  | pickup_started
  | in_transit
  | delivered
  | completed
  | cancelled
  | disputed
  | resolved
deriving DecidableEq, Repr

/-- ValidTransitions from dispute.go: the Go map literal.  A status that is
not a key of the map (completed, cancelled) yields `none`, matching the
`exists` flag of the Go map lookup. -/
def ValidTransitions : ShipmentStatus → Option (List ShipmentStatus)
  | .created => some [.price_confirmed, .cancelled]
  | .price_confirmed => some [.driver_assigned, .cancelled]
  | .driver_assigned => some [.pickup_started, .disputed, .cancelled]
  | .pickup_started => some [.in_transit, .disputed]
  | .in_transit => some [.delivered, .disputed]
  | .delivered => some [.completed, .disputed]
  | .disputed => some [.resolved]
  | .resolved => some [.completed]
  | .completed => none
  | .cancelled => none

/-- CanTransitionTo from dispute.go: map lookup and a linear scan of the
adjacency list. -/
def CanTransitionTo (current newStatus : ShipmentStatus) : Bool :=
  match ValidTransitions current with
  | none => false
  | some validNextStates => validNextStates.any (fun v => v == newStatus)

/-- Modelled from the spec: the adjacency table as written in section 4.4,
with the two terminal statuses mapped to the empty list.  This is the
spec-side relation that `CanTransitionTo` is compared against. -/
def specAdjacency : ShipmentStatus → List ShipmentStatus
  | .created => [.price_confirmed, .cancelled]
  | .price_confirmed => [.driver_assigned, .cancelled]
  | .driver_assigned => [.pickup_started, .disputed, .cancelled]
  | .pickup_started => [.in_transit, .disputed]
  | .in_transit => [.delivered, .disputed]
  | .delivered => [.completed, .disputed]
  | .disputed => [.resolved]
  | .resolved => [.completed]
  | .completed => []
  | .cancelled => []

/-- Shipment from dispute.go, projected to the fields the lifecycle engine
reads or writes. -/
structure Shipment where
  id : Nat
  userId : Nat
  driverId : Option Nat
  status : ShipmentStatus
deriving DecidableEq, Repr

/-- StateTransition from the models package, projected to the audited
fields. -/
structure StateTransition where
  shipmentId : Nat
  fromStatus : Option ShipmentStatus
  toStatus : ShipmentStatus
  triggeredBy : Nat
  triggeredByRole : String
deriving DecidableEq, Repr

/-- One message on the NATS event bus: topic plus the shipment it refers
to. -/
structure Event where
  topic : String
  shipmentId : Nat
deriving DecidableEq, Repr

/-- The persistence and event-bus collaborators of ShipmentService: the
shipments table, the append-only state_transitions table, and the events
published so far. -/
structure TrackerState where
  shipments : List Shipment
  transitions : List StateTransition
  events : List Event
deriving DecidableEq, Repr

/-- Failure-injection environment for the repositories: a true flag makes
the corresponding store operation return an error without mutating the
store, exactly the effect of a failed SQL statement. -/
structure RepoEnv where
  shipmentCreateFails : Bool
  transitionCreateFails : Bool
  updateStatusFails : Bool
  assignDriverWriteFails : Bool
deriving DecidableEq, Repr

/-- The all-succeed environment. -/
def envOk : RepoEnv :=
  { shipmentCreateFails := false, transitionCreateFails := false,
    updateStatusFails := false, assignDriverWriteFails := false }

/-- Service-level errors of ShipmentService. -/
inductive SvcError where
  | notFound
  | repoFailure
  | invalidTransition (fromStatus toStatus : ShipmentStatus)
deriving DecidableEq, Repr

/-- ShipmentRepository.GetByID. -/
def getShipment (st : TrackerState) (shipmentId : Nat) : Option Shipment :=
  st.shipments.find? (fun s => s.id == shipmentId)

/-- ShipmentRepository.UpdateStatus: UPDATE shipments SET status WHERE id. -/
def repoUpdateStatus (st : TrackerState) (shipmentId : Nat)
    (status : ShipmentStatus) : TrackerState :=
  let upd := fun (s : Shipment) =>
    if s.id == shipmentId then { s with status := status } else s
  { st with shipments := st.shipments.map upd }

/-- ShipmentRepository.AssignDriver: UPDATE shipments SET driver_id,
status = driver_assigned WHERE id. -/
def repoAssignDriver (st : TrackerState) (shipmentId driverId : Nat) :
    TrackerState :=
  let upd := fun (s : Shipment) =>
    if s.id == shipmentId then
      { s with driverId := some driverId, status := .driver_assigned }
    else s
  { st with shipments := st.shipments.map upd }

/-- TransitionRepository.Create: INSERT into the append-only log. -/
def repoAppendTransition (st : TrackerState) (t : StateTransition) :
    TrackerState :=
  { st with transitions := st.transitions ++ [t] }

/-- ShipmentService.publishEvent: NATS publish; a publish error is only
logged, so the model always records the emission attempt. -/
def publishEvent (st : TrackerState) (topic : String) (shipmentId : Nat) :
    TrackerState :=
  { st with events := st.events ++ [{ topic := topic, shipmentId := shipmentId }] }

/-- ShipmentService.CreateShipment.  The error of the initial
TransitionRepository.Create is deliberately ignored by the source
("Log error but don't fail"), which the model reproduces: when the insert
fails the shipment is still reported as created. -/
def CreateShipment (env : RepoEnv) (st : TrackerState) (id userId : Nat) :
    Except SvcError Shipment × TrackerState :=
  let shipment : Shipment :=
    { id := id, userId := userId, driverId := none, status := .created }
  if env.shipmentCreateFails then (.error .repoFailure, st)
  else
    let st1 := { st with shipments := st.shipments ++ [shipment] }
    let transition : StateTransition :=
      { shipmentId := id, fromStatus := none, toStatus := .created,
        triggeredBy := userId, triggeredByRole := "user" }
    let st2 := if env.transitionCreateFails then st1
               else repoAppendTransition st1 transition
    let st3 := publishEvent st2 "shipment.created" id
    (.ok shipment, st3)

/-- ShipmentService.AssignDriver.  The return value of
TransitionRepository.Create is discarded in the source (line 130), which
the model reproduces: a failing transition insert does not fail the call. -/
def AssignDriver (env : RepoEnv) (st : TrackerState)
    (shipmentId driverId : Nat) : Except SvcError Unit × TrackerState :=
  match getShipment st shipmentId with
  | none => (.error .notFound, st)
  | some shipment =>
    if !(CanTransitionTo shipment.status .driver_assigned) then
      (.error (.invalidTransition shipment.status .driver_assigned), st)
    else if env.assignDriverWriteFails then (.error .repoFailure, st)
    else
      let st1 := repoAssignDriver st shipmentId driverId
      let transition : StateTransition :=
        { shipmentId := shipmentId, fromStatus := some shipment.status,
          toStatus := .driver_assigned, triggeredBy := driverId,
          triggeredByRole := "driver" }
      let st2 := if env.transitionCreateFails then st1
                 else repoAppendTransition st1 transition
      let st3 := publishEvent st2 "shipment.driver.assigned" shipmentId
      (.ok (), st3)

/-- getTopicForStatus from shipment_service.go. -/
def getTopicForStatus : ShipmentStatus → String
  | .price_confirmed => "shipment.price.confirmed"
  | .pickup_started => "shipment.pickup.started"
  | .in_transit => "shipment.in.transit"
  | .delivered => "shipment.delivered"
  | .completed => "shipment.completed"
  | .cancelled => "shipment.cancelled"
  | .disputed => "shipment.disputed"
  | .resolved => "shipment.resolved"
  | _ => "shipment.status.changed"

/-- ShipmentService.updateStatusAndRecord.  Unlike AssignDriver, it does
check the transition-insert error, but only after the status row was
already updated. -/
def updateStatusAndRecord (env : RepoEnv) (st : TrackerState)
    (shipment : Shipment) (newStatus : ShipmentStatus)
    (triggeredBy : Nat) (role : String) :
    Except SvcError Unit × TrackerState :=
  if !(CanTransitionTo shipment.status newStatus) then
    (.error (.invalidTransition shipment.status newStatus), st)
  else if env.updateStatusFails then (.error .repoFailure, st)
  else
    let st1 := repoUpdateStatus st shipment.id newStatus
    let transition : StateTransition :=
      { shipmentId := shipment.id, fromStatus := some shipment.status,
        toStatus := newStatus, triggeredBy := triggeredBy,
        triggeredByRole := role }
    if env.transitionCreateFails then (.error .repoFailure, st1)
    else
      let st2 := repoAppendTransition st1 transition
      let st3 := publishEvent st2 (getTopicForStatus newStatus) shipment.id
      (.ok (), st3)

/-- The most recently appended transition row for a shipment. -/
def latestTransitionFor (st : TrackerState) (shipmentId : Nat) :
    Option StateTransition :=
  (st.transitions.filter (fun t => t.shipmentId == shipmentId)).getLast?

/-- Bin from go_backend/internal/models/bin.go, projected to the fields the
telemetry, routing and notification logic reads; LocationName is the
nullable pointer field. -/
structure GBin where
  id : Nat
  deviceId : String
  locationName : Option String
  lat : ℚ
  lng : ℚ
  fillLevel : Int
  lastUpdatedAt : Nat
deriving DecidableEq, Repr

/-- BinStatusUpdate from bin.go: the parsed MQTT payload. -/
structure BinStatusUpdate where
  binId : String
  fillLevel : Int
deriving DecidableEq, Repr

/-- The bin directory plus the dispatch requests issued so far (each
recorded NotifyNearestDriver invocation, by bin id). -/
structure IntakeState where
  bins : List GBin
  dispatches : List Nat
deriving DecidableEq, Repr

/-- Outcome of one processBinStatus run (the log line it ends on). -/
inductive IntakeOutcome where
  | validationError
  | binNotFound
  | applied (dispatched : Bool)
deriving DecidableEq, Repr

/-- BinRepository.UpdateFillLevel: UPDATE bins SET fill_level,
last_updated_at = CURRENT_TIMESTAMP WHERE device_id; a missing device
matches no row and is not an error. -/
def UpdateFillLevel (st : IntakeState) (deviceId : String) (fillLevel : Int)
    (now : Nat) : IntakeState :=
  let upd := fun (b : GBin) =>
    if b.deviceId == deviceId then
      { b with fillLevel := fillLevel, lastUpdatedAt := now }
    else b
  { st with bins := st.bins.map upd }

/-- BinRepository.GetByDeviceID. -/
def GetByDeviceID (st : IntakeState) (deviceId : String) : Option GBin :=
  st.bins.find? (fun b => b.deviceId == deviceId)

/-- processBinStatus from the MQTT client (src/unnamed/part_003), for one
already-parsed payload: reject out-of-range fill levels, otherwise write
the new level and timestamp, and when the new level is at or above the
threshold look the bin up and hand it to NotifyNearestDriver (recorded in
`dispatches`).  The threshold is the client field fillLevelThreshold
(90 in NewClient). -/
def processBinStatus (fillLevelThreshold : Int) (st : IntakeState)
    (status : BinStatusUpdate) (now : Nat) : IntakeOutcome × IntakeState :=
  if status.fillLevel < 0 || status.fillLevel > 100 then
    (.validationError, st)
  else
    let st1 := UpdateFillLevel st status.binId status.fillLevel now
    if status.fillLevel ≥ fillLevelThreshold then
      match GetByDeviceID st1 status.binId with
      | none => (.binNotFound, st1)
      | some bin =>
          (.applied true, { st1 with dispatches := st1.dispatches ++ [bin.id] })
    else (.applied false, st1)

/-- Driver from go_backend models, projected. -/
structure Driver where
  id : Nat
  fullName : String
  lat : ℚ
  lng : ℚ
deriving DecidableEq, Repr

/-- Result of NotifyNearestDriver.  `panicNilLocationName` marks the run
of the Go source that dereferences the nil LocationName pointer while
formatting the notification message and therefore panics. -/
inductive NotifyResult where
  | errorFindingDriver
  | noDriverAvailable
  | panicNilLocationName
  | notified (driverId : Nat) (message : String)
deriving DecidableEq, Repr

/-- NotificationService.NotifyNearestDriver from analytics_service.go.
The directory collaborator DriverRepository.GetNearestDriver is the
`getNearest` parameter (error, no driver, or a driver).  In the driver
branch the source builds the message with an unconditional
`*bin.LocationName`; the model maps the nil case of that dereference to
`panicNilLocationName`. -/
def NotifyNearestDriver (getNearest : ℚ → ℚ → Except Unit (Option Driver))
    (bin : GBin) : NotifyResult :=
  match getNearest bin.lat bin.lng with
  | .error _ => .errorFindingDriver
  | .ok none => .noDriverAvailable
  | .ok (some driver) =>
    match bin.locationName with
    | none => .panicNilLocationName
    | some name =>
        .notified driver.id
          ("Bin " ++ bin.deviceId ++ " at " ++ name ++ " is " ++
            toString bin.fillLevel ++ "% full and requires collection.")

/-- An abstract distance oracle with the signature of haversineDistance
(lat1 lng1 lat2 lng2).  The route algorithms only compare and add the
returned distances, so they are embedded relative to this oracle and the
theorems quantify over it. -/
def DistFn : Type := ℚ → ℚ → ℚ → ℚ → ℚ

/-- haversineDistance from route_service.go, transcribed verbatim over
Lean's IEEE-754 Float as a reference for what the oracle stands for; the
algorithm theorems do not depend on it. -/
def haversineDistance (lat1 lng1 lat2 lng2 : Float) : Float :=
  let earthRadiusKm : Float := 6371.0
  let lat1Rad := lat1 * 3.141592653589793 / 180
  let lat2Rad := lat2 * 3.141592653589793 / 180
  let deltaLat := (lat2 - lat1) * 3.141592653589793 / 180
  let deltaLng := (lng2 - lng1) * 3.141592653589793 / 180
  let a := Float.sin (deltaLat / 2) * Float.sin (deltaLat / 2) +
    Float.cos lat1Rad * Float.cos lat2Rad *
      Float.sin (deltaLng / 2) * Float.sin (deltaLng / 2)
  let c := 2 * Float.atan2 (Float.sqrt a) (Float.sqrt (1 - a))
  earthRadiusKm * c

/-- Waypoint from go_backend models, projected. -/
structure Waypoint where
  binId : Nat
  deviceId : String
  lat : ℚ
  lng : ℚ
  fillLevel : Int
  order : Nat
deriving DecidableEq, Repr

/-- The waypoint literal built for a selected bin in route_service.go. -/
def mkWaypoint (b : GBin) (ord : Nat) : Waypoint :=
  { binId := b.id, deviceId := b.deviceId, lat := b.lat, lng := b.lng,
    fillLevel := b.fillLevel, order := ord }

/-- The inner scan of optimizeByDistance: walk the bin list keeping the
nearest unvisited bin seen so far together with its distance.  The
accumulator `none` plays the role of the Go initialisation
minDist = math.MaxFloat64 / nearest = nil (the first unvisited bin always
passes the strict comparison). -/
def selectScan (dist : DistFn) (curLat curLng : ℚ) (visited : List Nat) :
    List GBin → Option (GBin × ℚ) → Option (GBin × ℚ)
  | [], best => best
  | b :: rest, best =>
    if b.id ∈ visited then selectScan dist curLat curLng visited rest best
    else
      let d := dist curLat curLng b.lat b.lng
      match best with
      | none => selectScan dist curLat curLng visited rest (some (b, d))
      | some (nb, m) =>
        if d < m then selectScan dist curLat curLng visited rest (some (b, d))
        else selectScan dist curLat curLng visited rest (some (nb, m))

/-- The nearest unvisited bin (the `nearest` variable after the scan). -/
def selectNearest (dist : DistFn) (curLat curLng : ℚ) (visited : List Nat)
    (bins : List GBin) : Option GBin :=
  (selectScan dist curLat curLng visited bins none).map Prod.fst

/-- The outer loop of optimizeByDistance
(`for len(waypoints) < len(bins)`), with explicit fuel: each Go loop
iteration costs one unit, and `none` means the condition was still true
when the fuel ran out.  An iteration in which no unvisited bin exists
changes nothing, exactly as in the source where `nearest == nil` skips the
append. -/
def nnLoop (dist : DistFn) (bins : List GBin) :
    Nat → ℚ → ℚ → List Nat → List Waypoint → Option (List Waypoint)
  | 0, _, _, _, acc =>
    if bins.length ≤ acc.length then some acc else none
  | fuel + 1, curLat, curLng, visited, acc =>
    if bins.length ≤ acc.length then some acc
    else
      match selectNearest dist curLat curLng visited bins with
      | some b =>
          nnLoop dist bins fuel b.lat b.lng (b.id :: visited)
            (acc ++ [mkWaypoint b (acc.length + 1)])
      | none => nnLoop dist bins fuel curLat curLng visited acc

/-- optimizeByDistance from route_service.go.  When the ids are distinct
the Go loop finishes after exactly bins.length iterations, so that fuel
budget makes the wrapper total on those inputs; `none` reports that the
budget was insufficient (and the duplicate-id lemmas show no budget ever
is, i.e. the Go loop diverges). -/
def optimizeByDistance (dist : DistFn) (bins : List GBin)
    (driverLat driverLng : ℚ) : Option (List Waypoint) :=
  nnLoop dist bins bins.length driverLat driverLng [] []

/-- The sort.Slice comparator of optimizeByFillLevel: fill level
descending, ties by ascending distance from the driver start. -/
def fillLess (dist : DistFn) (driverLat driverLng : ℚ) (bi bj : GBin) : Bool :=
  if bi.fillLevel ≠ bj.fillLevel then decide (bj.fillLevel < bi.fillLevel)
  else
    decide (dist driverLat driverLng bi.lat bi.lng <
      dist driverLat driverLng bj.lat bj.lng)

/-- optimizeByFillLevel from route_service.go: sort the candidate bins
with the comparator above, then number the waypoints 1..n.  Go's
sort.Slice guarantees exactly that the result is sorted for the
comparator (it fixes no particular order inside ties), which mergeSort on
the induced reflexive relation also guarantees. -/
def optimizeByFillLevel (dist : DistFn) (bins : List GBin)
    (driverLat driverLng : ℚ) : List Waypoint :=
  let sorted := bins.mergeSort
    (fun a b => !(fillLess dist driverLat driverLng b a))
  sorted.enum.map (fun p => mkWaypoint p.2 (p.1 + 1))

/-- Go's int(...) conversion: truncation toward zero. -/
def ratTrunc (q : ℚ) : Int :=
  if 0 ≤ q then ⌊q⌋ else -⌊-q⌋

/-- calculateRouteMetrics from route_service.go: the sum of consecutive
haversine legs from the driver start through the waypoints, and
int((distance/30)*60) + 2 minutes per stop; an empty waypoint list
returns (0, 0) early. -/
def calculateRouteMetrics (dist : DistFn) (startLat startLng : ℚ)
    (waypoints : List Waypoint) : ℚ × Int :=
  if waypoints.isEmpty then (0, 0)
  else
    let step := fun (acc : ℚ × ℚ × ℚ) (wp : Waypoint) =>
      (acc.1 + dist acc.2.1 acc.2.2 wp.lat wp.lng, wp.lat, wp.lng)
    let totalDistance := (waypoints.foldl step (0, startLat, startLng)).1
    (totalDistance,
      ratTrunc ((totalDistance / 30) * 60) + 2 * waypoints.length)

/-- The only caller-visible error of OptimizeRoute besides repository
failures: every requested bin id resolved to nothing. -/
inductive RouteErr where
  | noValidBins
deriving DecidableEq, Repr

/-- What a successful external Google Maps Directions call returns (summed
legs, already converted to km and minutes). -/
structure ExtRouteResult where
  distanceKm : ℚ
  durationMinutes : Int
deriving DecidableEq, Repr

/-- DriverRoute, projected to the fields OptimizeRoute fills. -/
structure DriverRoute where
  waypointsList : List Waypoint
  totalDistanceKm : ℚ
  estimatedDurationMinutes : Int
  status : String
deriving DecidableEq, Repr

/-- The strategy dispatch inside OptimizeRoute: the switch on the
optimizeBy string ("distance" falls through to the default, which is also
optimizeByDistance). -/
def strategyWaypoints (dist : DistFn) (bins : List GBin)
    (driverLat driverLng : ℚ) (optimizeBy : String) :
    Option (List Waypoint) :=
  if optimizeBy == "fill_level" then
    some (optimizeByFillLevel dist bins driverLat driverLng)
  else optimizeByDistance dist bins driverLat driverLng

/-- OptimizeRoute from route_service.go.  `resolve` is
BinRepository.GetByID with ids that resolve to nothing silently skipped;
`googleConfigured` is s.googleKey != ""; `external` is the outcome of
getGoogleMapsRoute, where `none` stands for any of its failure modes
(network error, non-OK status, empty route list) — in that case the
heuristic metrics are kept and only a warning is logged.  The outer
Option is the fuel verdict of the distance strategy. -/
def OptimizeRoute (dist : DistFn) (resolve : Nat → Option GBin)
    (driverLat driverLng : ℚ) (binIDs : List Nat) (optimizeBy : String)
    (googleConfigured : Bool) (external : Option ExtRouteResult) :
    Option (Except RouteErr DriverRoute) :=
  let bins := binIDs.filterMap resolve
  if bins.isEmpty then some (.error .noValidBins)
  else
    match strategyWaypoints dist bins driverLat driverLng optimizeBy with
    | none => none
    | some waypoints =>
      let metrics := calculateRouteMetrics dist driverLat driverLng waypoints
      let route : DriverRoute :=
        { waypointsList := waypoints, totalDistanceKm := metrics.1,
          estimatedDurationMinutes := metrics.2, status := "pending" }
      if googleConfigured then
        match external with
        | some r =>
            let overwritten : DriverRoute :=
              { route with
                totalDistanceKm := r.distanceKm,
                estimatedDurationMinutes := r.durationMinutes }
            some (.ok overwritten)
        | none => some (.ok route)
      else some (.ok route)

/-- The greedy nearest-neighbour tour property of a waypoint list, the
formal reading of the spec sentence for the distance strategy: from the
current position, the next waypoint is an unvisited input bin at minimum
oracle distance, and the position advances to it; at the end every input
bin has been visited. -/
def GreedyFrom (dist : DistFn) (bins : List GBin) :
    ℚ → ℚ → List Nat → List Waypoint → Prop
  | _, _, visited, [] => ∀ b ∈ bins, b.id ∈ visited
  | curLat, curLng, visited, w :: ws =>
      ∃ b ∈ bins, b.id ∉ visited ∧ w = mkWaypoint b w.order ∧
        (∀ b2 ∈ bins, b2.id ∉ visited →
          dist curLat curLng b.lat b.lng ≤ dist curLat curLng b2.lat b2.lng) ∧
        GreedyFrom dist bins b.lat b.lng (b.id :: visited) ws

/-- A computable stand-in distance oracle used to instantiate the
oracle-generic theorems on concrete inputs: the distance to a point is its
latitude (chosen free of rational arithmetic so that concrete runs reduce
inside the kernel). -/
def dQ : DistFn := fun _ _ lat2 _ => lat2

/-- Concrete bins for witnesses. -/
def binW1 : GBin :=
  { id := 1, deviceId := "dev-1", locationName := some "Main Street",
    lat := 0, lng := 0, fillLevel := 95, lastUpdatedAt := 0 }

def binW2 : GBin :=
  { id := 2, deviceId := "dev-2", locationName := none,
    lat := 3, lng := 0, fillLevel := 95, lastUpdatedAt := 0 }

def binW3 : GBin :=
  { id := 3, deviceId := "dev-3", locationName := none,
    lat := 1, lng := 0, fillLevel := 50, lastUpdatedAt := 0 }

/-- A duplicated-id scenario: the same bin resolved twice. -/
def binDup : GBin :=
  { id := 7, deviceId := "dev-7", locationName := none,
    lat := 0, lng := 0, fillLevel := 95, lastUpdatedAt := 0 }

/-- Environment in which only the transition-log insert fails. -/
def envLogFail : RepoEnv :=
  { shipmentCreateFails := false, transitionCreateFails := true,
    updateStatusFails := false, assignDriverWriteFails := false }

/-- A price_confirmed shipment whose audit log is consistent. -/
def shC2 : Shipment :=
  { id := 1, userId := 10, driverId := none, status := .price_confirmed }

def stC2 : TrackerState :=
  { shipments := [shC2],
    transitions :=
      [{ shipmentId := 1, fromStatus := none, toStatus := .created,
         triggeredBy := 10, triggeredByRole := "user" },
       { shipmentId := 1, fromStatus := some .created,
         toStatus := .price_confirmed, triggeredBy := 10,
         triggeredByRole := "user" }],
    events := [] }

/-- The empty tracker store. -/
def stEmpty : TrackerState := { shipments := [], transitions := [], events := [] }

/-- A freshly created shipment, for the invalid-transition witness. -/
def shC3 : Shipment :=
  { id := 4, userId := 11, driverId := none, status := .created }

def stC3 : TrackerState :=
  { shipments := [shC3],
    transitions :=
      [{ shipmentId := 4, fromStatus := none, toStatus := .created,
         triggeredBy := 11, triggeredByRole := "user" }],
    events := [] }

/-- A bin below the threshold, about to receive two high reports. -/
def binC5 : GBin :=
  { id := 21, deviceId := "bin-21", locationName := none,
    lat := 0, lng := 0, fillLevel := 85, lastUpdatedAt := 0 }

def stC5 : IntakeState := { bins := [binC5], dispatches := [] }

/-- A concrete available driver and directory answers for the
notification witnesses. -/
def drvW : Driver := { id := 9, fullName := "Sam Driver", lat := 2, lng := 2 }

def getNearestSome : ℚ → ℚ → Except Unit (Option Driver) :=
  fun _ _ => .ok (some drvW)

/-- Concrete resolver for the route witnesses: ids 1 and 3 resolve, id 5
resolves to the duplicated bin, everything else is unknown. -/
def resolveW : Nat → Option GBin :=
  fun n =>
    if n = 1 then some binW1
    else if n = 2 then some binW2
    else if n = 3 then some binW3
    else if n = 5 then some binDup
    else none

/-- The waypoint list the distance strategy produces for ids [1, 3] under
resolveW and the dQ oracle. -/
def wsC8 : List Waypoint := [mkWaypoint binW1 1, mkWaypoint binW3 2]

/-- C1: CanTransitionTo(s, t) is true exactly when t is in the adjacency
list of s of the transition table, and for the terminal statuses
cancelled and completed (the statuses without a table entry) it is false
for every target. -/
theorem C1_state_machine_table :
    (∀ s t : ShipmentStatus,
      CanTransitionTo s t = true ↔ t ∈ specAdjacency s) ∧
    (∀ t : ShipmentStatus,
      CanTransitionTo .cancelled t = false ∧
      CanTransitionTo .completed t = false) := by
  constructor
  · intro s t
    cases s <;> cases t <;> decide
  · intro t
    cases t <;> decide

/-- C2 (code bug): when the transition-log insert fails, AssignDriver
still reports success, stores status driver_assigned, yet the most
recently appended transition row still says price_confirmed — the
spec invariant that the stored status equals the toStatus of the latest
transition is broken by an operation that reported success. -/
theorem C2_success_with_stale_log :
    ((AssignDriver envLogFail stC2 1 7).1 = Except.ok () ∧
      (getShipment (AssignDriver envLogFail stC2 1 7).2 1).map
        Shipment.status = some .driver_assigned ∧
      (latestTransitionFor (AssignDriver envLogFail stC2 1 7).2 1).map
        StateTransition.toStatus = some .price_confirmed ∧
      ShipmentStatus.driver_assigned ≠ ShipmentStatus.price_confirmed) ∧
    ((CreateShipment envLogFail stEmpty 2 10).1.isOk = true ∧
      (getShipment (CreateShipment envLogFail stEmpty 2 10).2 2).map
        Shipment.status = some .created ∧
      latestTransitionFor (CreateShipment envLogFail stEmpty 2 10).2 2 =
        none) := by
  refine ⟨⟨rfl, rfl, rfl, by decide⟩, ⟨rfl, rfl, rfl⟩⟩

/-- C3: when the current status does not permit the requested target,
AssignDriver and updateStatusAndRecord return the InvalidTransition
error and leave the state exactly as it was: no status write, no appended
transition row, no published event. -/
theorem C3_invalid_transition_no_write :
    (∀ (env : RepoEnv) (st : TrackerState) (sid did : Nat) (sh : Shipment),
      getShipment st sid = some sh →
      CanTransitionTo sh.status .driver_assigned = false →
      AssignDriver env st sid did =
        (.error (.invalidTransition sh.status .driver_assigned), st)) ∧
    (∀ (env : RepoEnv) (st : TrackerState) (sh : Shipment)
      (ns : ShipmentStatus) (tb : Nat) (role : String),
      CanTransitionTo sh.status ns = false →
      updateStatusAndRecord env st sh ns tb role =
        (.error (.invalidTransition sh.status ns), st)) := by
  constructor
  · intro env st sid did sh hfind hcan
    unfold AssignDriver
    rw [hfind]
    simp [hcan]
  · intro env st sh ns tb role hcan
    unfold updateStatusAndRecord
    simp [hcan]

/-- Witness for C3 at a concrete input: a created shipment may not jump
straight to driver_assigned. -/
theorem C3_invalid_transition_no_write_witness :
    (getShipment stC3 4 = some shC3 ∧
      CanTransitionTo shC3.status .driver_assigned = false ∧
      AssignDriver envOk stC3 4 7 =
        (.error (.invalidTransition shC3.status .driver_assigned), stC3)) ∧
    (CanTransitionTo shC3.status .delivered = false ∧
      updateStatusAndRecord envOk stC3 shC3 .delivered 11 "user" =
        (.error (.invalidTransition shC3.status .delivered), stC3)) := by
  refine ⟨⟨by decide, by decide, ?_⟩, ⟨by decide, ?_⟩⟩
  · exact C3_invalid_transition_no_write.1 envOk stC3 4 7 shC3 (by decide)
      (by decide)
  · exact C3_invalid_transition_no_write.2 envOk stC3 shC3 .delivered 11
      "user" (by decide)

/-- C4: an out-of-range fill-level report makes processBinStatus return
the validation outcome with the state untouched: the stored fill level
and the update timestamp keep their previous values. -/
theorem C4_out_of_range_not_applied
    (threshold : Int) (st : IntakeState) (u : BinStatusUpdate) (now : Nat)
    (h : u.fillLevel < 0 ∨ 100 < u.fillLevel) :
    processBinStatus threshold st u now = (.validationError, st) := by
  unfold processBinStatus
  rcases h with h | h <;> simp [h]

/-- Witness for C4 at fill level 101. -/
theorem C4_out_of_range_not_applied_witness :
    (((101 : Int) < 0 ∨ (100 : Int) < 101) ∧
      processBinStatus 90 stC5 { binId := "bin-21", fillLevel := 101 } 5 =
        (.validationError, stC5)) ∧
    (((-3 : Int) < 0 ∨ (100 : Int) < -3) ∧
      processBinStatus 90 stC5 { binId := "bin-21", fillLevel := -3 } 5 =
        (.validationError, stC5)) :=
  ⟨⟨Or.inr (by decide),
    C4_out_of_range_not_applied 90 stC5 _ 5 (Or.inr (by decide))⟩,
   ⟨Or.inl (by decide),
    C4_out_of_range_not_applied 90 stC5 _ 5 (Or.inl (by decide))⟩⟩

/-- C5 (code bug): the intake re-triggers dispatch on every accepted
report at or above the threshold.  Starting from a bin at 85, an accepted
report of 95 dispatches once, and a subsequent report of 97 — still at or
above the threshold of 90 — dispatches again, so two dispatch requests
are recorded where the claim allows exactly one. -/
theorem C5_retriggers_above_threshold :
    (processBinStatus 90 stC5 { binId := "bin-21", fillLevel := 95 } 1).1 =
      .applied true ∧
    (processBinStatus 90 stC5
      { binId := "bin-21", fillLevel := 95 } 1).2.dispatches = [21] ∧
    (processBinStatus 90
      (processBinStatus 90 stC5 { binId := "bin-21", fillLevel := 95 } 1).2
      { binId := "bin-21", fillLevel := 97 } 2).1 = .applied true ∧
    (processBinStatus 90
      (processBinStatus 90 stC5 { binId := "bin-21", fillLevel := 95 } 1).2
      { binId := "bin-21", fillLevel := 97 } 2).2.dispatches = [21, 21] := by
  refine ⟨?_, ?_, ?_, ?_⟩ <;> decide

/-- C10: whenever the directory returns an available nearest driver, a
bin whose LocationName is nil makes NotifyNearestDriver panic on the
unconditional pointer dereference in the message construction; with a
location name present the call completes and sends the notification. -/
theorem C10_nil_location_name_panics :
    (∀ (getNearest : ℚ → ℚ → Except Unit (Option Driver)) (bin : GBin)
      (d : Driver),
      bin.locationName = none →
      getNearest bin.lat bin.lng = .ok (some d) →
      NotifyNearestDriver getNearest bin = .panicNilLocationName) ∧
    (∀ (getNearest : ℚ → ℚ → Except Unit (Option Driver)) (bin : GBin)
      (d : Driver) (name : String),
      bin.locationName = some name →
      getNearest bin.lat bin.lng = .ok (some d) →
      NotifyNearestDriver getNearest bin =
        .notified d.id
          ("Bin " ++ bin.deviceId ++ " at " ++ name ++ " is " ++
            toString bin.fillLevel ++ "% full and requires collection.")) := by
  constructor
  · intro getNearest bin d hname hfound
    unfold NotifyNearestDriver
    rw [hfound, hname]
  · intro getNearest bin d name hname hfound
    unfold NotifyNearestDriver
    rw [hfound, hname]

/-- Witness for C10: binW2 has no location name and panics; binW1 has one
and the dispatch completes. -/
theorem C10_nil_location_name_panics_witness :
    (binW2.locationName = none ∧
      NotifyNearestDriver getNearestSome binW2 = .panicNilLocationName) ∧
    (binW1.locationName = some "Main Street" ∧
      NotifyNearestDriver getNearestSome binW1 =
        .notified drvW.id
          ("Bin " ++ binW1.deviceId ++ " at " ++ "Main Street" ++ " is " ++
            toString binW1.fillLevel ++ "% full and requires collection.")) :=
  ⟨⟨rfl, C10_nil_location_name_panics.1 getNearestSome binW2 drvW rfl rfl⟩,
   ⟨rfl, C10_nil_location_name_panics.2 getNearestSome binW1 drvW
      "Main Street" rfl rfl⟩⟩

theorem selectScan_cons_visited (dist : DistFn) (curLat curLng : ℚ)
    (visited : List Nat) (b : GBin) (rest : List GBin)
    (best : Option (GBin × ℚ)) (h : b.id ∈ visited) :
    selectScan dist curLat curLng visited (b :: rest) best =
      selectScan dist curLat curLng visited rest best := by
  simp [selectScan, h]

theorem selectScan_cons_new (dist : DistFn) (curLat curLng : ℚ)
    (visited : List Nat) (b : GBin) (rest : List GBin)
    (h : b.id ∉ visited) :
    selectScan dist curLat curLng visited (b :: rest) none =
      selectScan dist curLat curLng visited rest
        (some (b, dist curLat curLng b.lat b.lng)) := by
  simp [selectScan, h]

theorem selectScan_cons_best (dist : DistFn) (curLat curLng : ℚ)
    (visited : List Nat) (b nb : GBin) (rest : List GBin) (m : ℚ)
    (h : b.id ∉ visited) :
    selectScan dist curLat curLng visited (b :: rest) (some (nb, m)) =
      if dist curLat curLng b.lat b.lng < m then
        selectScan dist curLat curLng visited rest
          (some (b, dist curLat curLng b.lat b.lng))
      else selectScan dist curLat curLng visited rest (some (nb, m)) := by
  simp [selectScan, h]

theorem selectScan_mem (dist : DistFn) (curLat curLng : ℚ)
    (visited : List Nat) :
    ∀ (l : List GBin) (best : Option (GBin × ℚ)) (b : GBin) (m : ℚ),
      selectScan dist curLat curLng visited l best = some (b, m) →
      (b ∈ l ∧ b.id ∉ visited ∧ m = dist curLat curLng b.lat b.lng) ∨
        best = some (b, m) := by
  intro l
  induction l with
  | nil =>
    intro best b m h
    right
    simpa [selectScan] using h
  | cons b0 rest ih =>
    intro best b m h
    by_cases hid : b0.id ∈ visited
    · rw [selectScan_cons_visited dist curLat curLng visited b0 rest best hid]
        at h
      rcases ih best b m h with ⟨h1, h2, h3⟩ | h4
      · exact Or.inl ⟨List.mem_cons_of_mem _ h1, h2, h3⟩
      · exact Or.inr h4
    · cases best with
      | none =>
        rw [selectScan_cons_new dist curLat curLng visited b0 rest hid] at h
        rcases ih _ b m h with ⟨h1, h2, h3⟩ | h4
        · exact Or.inl ⟨List.mem_cons_of_mem _ h1, h2, h3⟩
        · simp only [Option.some.injEq, Prod.mk.injEq] at h4
          obtain ⟨hb, hm⟩ := h4
          subst hb
          exact Or.inl ⟨List.mem_cons_self _ _, hid, hm.symm⟩
      | some p =>
        obtain ⟨nb, m0⟩ := p
        rw [selectScan_cons_best dist curLat curLng visited b0 nb rest m0 hid]
          at h
        split_ifs at h with hd
        · rcases ih _ b m h with ⟨h1, h2, h3⟩ | h4
          · exact Or.inl ⟨List.mem_cons_of_mem _ h1, h2, h3⟩
          · simp only [Option.some.injEq, Prod.mk.injEq] at h4
            obtain ⟨hb, hm⟩ := h4
            subst hb
            exact Or.inl ⟨List.mem_cons_self _ _, hid, hm.symm⟩
        · rcases ih _ b m h with ⟨h1, h2, h3⟩ | h4
          · exact Or.inl ⟨List.mem_cons_of_mem _ h1, h2, h3⟩
          · exact Or.inr h4

theorem selectScan_min (dist : DistFn) (curLat curLng : ℚ)
    (visited : List Nat) :
    ∀ (l : List GBin) (best : Option (GBin × ℚ)) (b : GBin) (m : ℚ),
      selectScan dist curLat curLng visited l best = some (b, m) →
      (∀ (nb : GBin) (m0 : ℚ), best = some (nb, m0) → m ≤ m0) ∧
      (∀ b2 ∈ l, b2.id ∉ visited → m ≤ dist curLat curLng b2.lat b2.lng) := by
  intro l
  induction l with
  | nil =>
    intro best b m h
    simp only [selectScan] at h
    subst h
    constructor
    · intro nb m0 he
      simp only [Option.some.injEq, Prod.mk.injEq] at he
      exact le_of_eq he.2
    · intro b2 hb2
      exact absurd hb2 (by simp)
  | cons b0 rest ih =>
    intro best b m h
    by_cases hid : b0.id ∈ visited
    · rw [selectScan_cons_visited dist curLat curLng visited b0 rest best hid]
        at h
      obtain ⟨ha, hl⟩ := ih best b m h
      refine ⟨ha, fun b2 hb2 hv2 => ?_⟩
      rcases List.mem_cons.1 hb2 with rfl | hb2
      · exact absurd hid hv2
      · exact hl b2 hb2 hv2
    · cases best with
      | none =>
        rw [selectScan_cons_new dist curLat curLng visited b0 rest hid] at h
        obtain ⟨ha, hl⟩ := ih _ b m h
        have hb0 : m ≤ dist curLat curLng b0.lat b0.lng := ha b0 _ rfl
        refine ⟨?_, ?_⟩
        · intro nb m0 he
          cases he
        · intro b2 hb2 hv2
          rcases List.mem_cons.1 hb2 with rfl | hb2
          · exact hb0
          · exact hl b2 hb2 hv2
      | some p =>
        obtain ⟨nb0, m0⟩ := p
        rw [selectScan_cons_best dist curLat curLng visited b0 nb0 rest m0 hid]
          at h
        split_ifs at h with hd
        · obtain ⟨ha, hl⟩ := ih _ b m h
          have hb0 : m ≤ dist curLat curLng b0.lat b0.lng := ha b0 _ rfl
          refine ⟨fun nb m1 he => ?_, fun b2 hb2 hv2 => ?_⟩
          · simp only [Option.some.injEq, Prod.mk.injEq] at he
            exact le_of_lt (lt_of_le_of_lt hb0 (he.2 ▸ hd))
          · rcases List.mem_cons.1 hb2 with rfl | hb2
            · exact hb0
            · exact hl b2 hb2 hv2
        · obtain ⟨ha, hl⟩ := ih _ b m h
          have hm0 : m ≤ m0 := ha nb0 m0 rfl
          refine ⟨fun nb m1 he => ?_, fun b2 hb2 hv2 => ?_⟩
          · simp only [Option.some.injEq, Prod.mk.injEq] at he
            exact he.2 ▸ hm0
          · rcases List.mem_cons.1 hb2 with rfl | hb2
            · exact le_trans hm0 (le_of_not_lt hd)
            · exact hl b2 hb2 hv2

theorem selectScan_some_of_best (dist : DistFn) (curLat curLng : ℚ)
    (visited : List Nat) :
    ∀ (l : List GBin) (nb : GBin) (m0 : ℚ),
      selectScan dist curLat curLng visited l (some (nb, m0)) ≠ none := by
  intro l
  induction l with
  | nil => intro nb m0; simp [selectScan]
  | cons b0 rest ih =>
    intro nb m0
    by_cases hid : b0.id ∈ visited
    · rw [selectScan_cons_visited dist curLat curLng visited b0 rest _ hid]
      exact ih nb m0
    · rw [selectScan_cons_best dist curLat curLng visited b0 nb rest m0 hid]
      split_ifs with hd
      · exact ih b0 _
      · exact ih nb m0

theorem selectScan_ne_none (dist : DistFn) (curLat curLng : ℚ)
    (visited : List Nat) :
    ∀ (l : List GBin) (best : Option (GBin × ℚ)) (b0 : GBin),
      b0 ∈ l → b0.id ∉ visited →
      selectScan dist curLat curLng visited l best ≠ none := by
  intro l
  induction l with
  | nil => intro best b0 h; exact absurd h (by simp)
  | cons b1 rest ih =>
    intro best b0 hmem hv
    rcases List.mem_cons.1 hmem with rfl | hmem
    · cases best with
      | none =>
        rw [selectScan_cons_new dist curLat curLng visited b0 rest hv]
        exact selectScan_some_of_best dist curLat curLng visited rest b0 _
      | some p =>
        obtain ⟨nb, m0⟩ := p
        rw [selectScan_cons_best dist curLat curLng visited b0 nb rest m0 hv]
        split_ifs with hd
        · exact selectScan_some_of_best dist curLat curLng visited rest b0 _
        · exact selectScan_some_of_best dist curLat curLng visited rest nb m0
    · by_cases hid : b1.id ∈ visited
      · rw [selectScan_cons_visited dist curLat curLng visited b1 rest best hid]
        exact ih best b0 hmem hv
      · cases best with
        | none =>
          rw [selectScan_cons_new dist curLat curLng visited b1 rest hid]
          exact selectScan_some_of_best dist curLat curLng visited rest b1 _
        | some p =>
          obtain ⟨nb, m0⟩ := p
          rw [selectScan_cons_best dist curLat curLng visited b1 nb rest m0 hid]
          split_ifs with hd
          · exact selectScan_some_of_best dist curLat curLng visited rest b1 _
          · exact selectScan_some_of_best dist curLat curLng visited rest nb m0

theorem selectNearest_spec (dist : DistFn) (curLat curLng : ℚ)
    (visited : List Nat) (bins : List GBin) (b : GBin)
    (h : selectNearest dist curLat curLng visited bins = some b) :
    b ∈ bins ∧ b.id ∉ visited ∧
    ∀ b2 ∈ bins, b2.id ∉ visited →
      dist curLat curLng b.lat b.lng ≤ dist curLat curLng b2.lat b2.lng := by
  unfold selectNearest at h
  cases hs : selectScan dist curLat curLng visited bins none with
  | none => rw [hs] at h; cases h
  | some p =>
    obtain ⟨b1, m⟩ := p
    rw [hs] at h
    simp only [Option.map_some', Option.some.injEq] at h
    subst h
    rcases selectScan_mem dist curLat curLng visited bins none b1 m hs with
      ⟨h1, h2, h3⟩ | h4
    · subst h3
      exact ⟨h1, h2,
        (selectScan_min dist curLat curLng visited bins none b1 _ hs).2⟩
    · cases h4

theorem selectNearest_ne_none (dist : DistFn) (curLat curLng : ℚ)
    (visited : List Nat) (bins : List GBin) (b0 : GBin)
    (hmem : b0 ∈ bins) (hv : b0.id ∉ visited) :
    selectNearest dist curLat curLng visited bins ≠ none := by
  unfold selectNearest
  intro h
  cases hs : selectScan dist curLat curLng visited bins none with
  | none =>
    exact selectScan_ne_none dist curLat curLng visited bins none b0 hmem hv
      hs
  | some p => rw [hs] at h; cases h

theorem visited_lt_of_dup {ids visited : List Nat} (hdup : ¬ ids.Nodup)
    (hv : visited.Nodup) (hsub : visited ⊆ ids) :
    visited.length < ids.length := by
  have h2 : visited.toFinset ⊆ ids.toFinset := by
    intro x hx
    rw [List.mem_toFinset] at hx ⊢
    exact hsub hx
  have h3 := Finset.card_le_card h2
  rw [List.card_toFinset, List.card_toFinset, hv.dedup] at h3
  have h4 : ids.dedup.length < ids.length := by
    rcases Nat.lt_or_ge ids.dedup.length ids.length with h | h
    · exact h
    · exact absurd
        ((List.dedup_sublist ids).eq_of_length
          (Nat.le_antisymm (List.dedup_sublist ids).length_le h) ▸
            List.nodup_dedup ids) hdup
  omega

theorem nnLoop_none_of_dup (dist : DistFn) (bins : List GBin)
    (hdup : ¬ (bins.map GBin.id).Nodup) :
    ∀ (fuel : Nat) (curLat curLng : ℚ) (visited : List Nat)
      (acc : List Waypoint),
      visited.Nodup → visited ⊆ bins.map GBin.id →
      visited.length = acc.length →
      nnLoop dist bins fuel curLat curLng visited acc = none := by
  intro fuel
  induction fuel with
  | zero =>
    intro curLat curLng visited acc hv hsub hlen
    have hlt : acc.length < bins.length := by
      have := visited_lt_of_dup hdup hv hsub
      rw [List.length_map] at this
      omega
    simp only [nnLoop]
    rw [if_neg (Nat.not_le.2 hlt)]
  | succ fuel ih =>
    intro curLat curLng visited acc hv hsub hlen
    have hlt : acc.length < bins.length := by
      have := visited_lt_of_dup hdup hv hsub
      rw [List.length_map] at this
      omega
    simp only [nnLoop]
    rw [if_neg (Nat.not_le.2 hlt)]
    cases hsel : selectNearest dist curLat curLng visited bins with
    | some b =>
      obtain ⟨hmem, hnv, _⟩ :=
        selectNearest_spec dist curLat curLng visited bins b hsel
      exact ih b.lat b.lng (b.id :: visited) _
        (List.nodup_cons.2 ⟨hnv, hv⟩)
        (List.cons_subset.2 ⟨List.mem_map_of_mem _ hmem, hsub⟩)
        (by simp [hlen])
    | none => exact ih curLat curLng visited acc hv hsub hlen

theorem nnLoop_nodup_spec (dist : DistFn) (bins : List GBin)
    (hnd : (bins.map GBin.id).Nodup) :
    ∀ (fuel : Nat) (curLat curLng : ℚ) (visited : List Nat)
      (acc : List Waypoint),
      visited.Nodup → visited ⊆ bins.map GBin.id →
      visited.length = acc.length →
      bins.length = acc.length + fuel →
      ∃ rest,
        nnLoop dist bins fuel curLat curLng visited acc = some (acc ++ rest) ∧
        (visited ++ rest.map Waypoint.binId).Perm (bins.map GBin.id) ∧
        (∀ w ∈ rest, ∃ b ∈ bins, w = mkWaypoint b w.order) ∧
        (∀ (k : Nat) (h : k < rest.length),
          (rest.get ⟨k, h⟩).order = acc.length + k + 1) ∧
        GreedyFrom dist bins curLat curLng visited rest := by
  intro fuel
  induction fuel with
  | zero =>
    intro curLat curLng visited acc hv hsub hlen hfuel
    have hperm : visited.Perm (bins.map GBin.id) := by
      refine (hv.subperm hsub).perm_of_length_le ?_
      rw [List.length_map]
      omega
    refine ⟨[], ?_, by simpa using hperm, by simp, ?_, ?_⟩
    · simp only [nnLoop]
      rw [if_pos (by omega), List.append_nil]
    · intro k h
      exact absurd h (by simp)
    · simp only [GreedyFrom]
      intro b hb
      exact hperm.mem_iff.2 (List.mem_map_of_mem _ hb)
  | succ fuel ih =>
    intro curLat curLng visited acc hv hsub hlen hfuel
    have hlt : acc.length < bins.length := by omega
    have hex : ∃ b0, b0 ∈ bins ∧ b0.id ∉ visited := by
      by_contra hall
      push_neg at hall
      have hids : (bins.map GBin.id) ⊆ visited := by
        intro x hx
        rcases List.mem_map.1 hx with ⟨b0, hb0, rfl⟩
        exact hall b0 hb0
      have := (hnd.subperm hids).length_le
      rw [List.length_map] at this
      omega
    obtain ⟨b0, hb0, hb0v⟩ := hex
    cases hsel : selectNearest dist curLat curLng visited bins with
    | none =>
      exact absurd hsel
        (selectNearest_ne_none dist curLat curLng visited bins b0 hb0 hb0v)
    | some b =>
      obtain ⟨hmem, hnv, hmin⟩ :=
        selectNearest_spec dist curLat curLng visited bins b hsel
      obtain ⟨rest, hloop, hperm, hfields, horder, hgreedy⟩ :=
        ih b.lat b.lng (b.id :: visited)
          (acc ++ [mkWaypoint b (acc.length + 1)])
          (List.nodup_cons.2 ⟨hnv, hv⟩)
          (List.cons_subset.2 ⟨List.mem_map_of_mem _ hmem, hsub⟩)
          (by simp [hlen]) (by simp; omega)
      refine ⟨mkWaypoint b (acc.length + 1) :: rest, ?_, ?_, ?_, ?_, ?_⟩
      · simp only [nnLoop]
        rw [if_neg (Nat.not_le.2 hlt), hsel]
        show nnLoop dist bins fuel b.lat b.lng (b.id :: visited)
          (acc ++ [mkWaypoint b (acc.length + 1)]) =
            some (acc ++ mkWaypoint b (acc.length + 1) :: rest)
        rw [hloop, List.append_assoc]
        rfl
      · have h1 : (visited ++
            (mkWaypoint b (acc.length + 1) :: rest).map Waypoint.binId).Perm
            ((b.id :: visited) ++ rest.map Waypoint.binId) := by
          simp only [List.map_cons, mkWaypoint, List.cons_append]
          exact List.perm_middle
        exact h1.trans hperm
      · intro w hw
        rcases List.mem_cons.1 hw with rfl | hw
        · exact ⟨b, hmem, rfl⟩
        · exact hfields w hw
      · intro k h
        cases k with
        | zero => simp [mkWaypoint]
        | succ k =>
          have hk : k < rest.length := by
            simpa using h
          have := horder k hk
          simp only [List.get_cons_succ]
          rw [this]
          simp
          omega
      · simp only [GreedyFrom]
        exact ⟨b, hmem, hnv, rfl, hmin, hgreedy⟩

theorem count_filterMap_of_resolve {resolve : Nat → Option GBin}
    {d : Nat} {b : GBin} (hres : resolve d = some b) :
    ∀ binIDs : List Nat,
      List.count d binIDs ≤ List.count b (binIDs.filterMap resolve) := by
  intro binIDs
  induction binIDs with
  | nil => simp
  | cons x xs ih =>
    rw [List.filterMap_cons]
    by_cases hx : x = d
    · subst hx
      rw [hres]
      simp only [List.count_cons, beq_self_eq_true, if_pos]
      omega
    · have hxd : (x == d) = false := by simp [hx]
      cases hrx : resolve x with
      | none =>
        simp only [List.count_cons, hxd, Bool.false_eq_true, if_false]
        omega
      | some b2 =>
        simp only [List.count_cons, hxd, Bool.false_eq_true, if_false]
        have hif : (0 : Nat) ≤ if (b2 == b) = true then 1 else 0 := by
          split <;> omega
        omega

theorem count_map_id_ge (b : GBin) :
    ∀ l : List GBin, List.count b l ≤ List.count b.id (l.map GBin.id) := by
  intro l
  induction l with
  | nil => simp
  | cons x xs ih =>
    simp only [List.map_cons, List.count_cons]
    rcases eq_or_ne x b with rfl | hx
    · simp only [beq_self_eq_true, if_pos]
      omega
    · have hx2 : (x == b) = false := by simp [hx]
      simp only [hx2, Bool.false_eq_true, if_false]
      have hif : (0 : Nat) ≤ if (x.id == b.id) = true then 1 else 0 := by
        split <;> omega
      omega

/-- C9: when the bin id list contains the same id twice and it resolves,
the nearest-neighbour loop of the distance strategy never terminates: no
fuel budget makes the waypoint count reach the resolved-bin count, so the
fueled loop answers none for every budget, and OptimizeRoute with the
distance strategy never returns. -/
theorem C9_duplicate_id_diverges (dist : DistFn)
    (resolve : Nat → Option GBin) (binIDs : List Nat) (d : Nat) (b : GBin)
    (driverLat driverLng : ℚ)
    (hdup : 2 ≤ List.count d binIDs) (hres : resolve d = some b) :
    (∀ fuel : Nat,
      nnLoop dist (binIDs.filterMap resolve) fuel driverLat driverLng [] [] =
        none) ∧
    optimizeByDistance dist (binIDs.filterMap resolve) driverLat driverLng =
      none ∧
    (∀ (googleConfigured : Bool) (external : Option ExtRouteResult),
      OptimizeRoute dist resolve driverLat driverLng binIDs "distance"
        googleConfigured external = none) := by
  have hcountb : 2 ≤ List.count b (binIDs.filterMap resolve) :=
    le_trans hdup (count_filterMap_of_resolve hres binIDs)
  have hcountid : 2 ≤
      List.count b.id ((binIDs.filterMap resolve).map GBin.id) :=
    le_trans hcountb (count_map_id_ge b _)
  have hdupids : ¬ ((binIDs.filterMap resolve).map GBin.id).Nodup := by
    intro hn
    have := List.nodup_iff_count_le_one.1 hn b.id
    omega
  have hloop : ∀ fuel : Nat,
      nnLoop dist (binIDs.filterMap resolve) fuel driverLat driverLng [] [] =
        none := by
    intro fuel
    exact nnLoop_none_of_dup dist _ hdupids fuel driverLat driverLng [] []
      (by simp) (by simp) rfl
  have hopt : optimizeByDistance dist (binIDs.filterMap resolve) driverLat
      driverLng = none := hloop _
  refine ⟨hloop, hopt, ?_⟩
  intro googleConfigured external
  have hne : ((binIDs.filterMap resolve).isEmpty) = false := by
    have hmem : b ∈ binIDs.filterMap resolve := by
      have : 0 < List.count b (binIDs.filterMap resolve) := by omega
      exact List.count_pos_iff.1 this
    cases hl : binIDs.filterMap resolve with
    | nil => rw [hl] at hmem; cases hmem
    | cons x xs => simp [hl]
  have hstrat : strategyWaypoints dist (binIDs.filterMap resolve) driverLat
      driverLng "distance" = none := by
    unfold strategyWaypoints
    simp [hopt]
  simp only [OptimizeRoute, hne, Bool.false_eq_true, if_false, hstrat]

/-- Witness for C9: id 5 occurs twice and resolves to binDup. -/
theorem C9_duplicate_id_diverges_witness :
    (2 ≤ List.count 5 [5, 5] ∧ resolveW 5 = some binDup) ∧
    ((∀ fuel : Nat,
      nnLoop dQ ([5, 5].filterMap resolveW) fuel 0 0 [] [] = none) ∧
    optimizeByDistance dQ ([5, 5].filterMap resolveW) 0 0 = none ∧
    (∀ (googleConfigured : Bool) (external : Option ExtRouteResult),
      OptimizeRoute dQ resolveW 0 0 [5, 5] "distance"
        googleConfigured external = none)) :=
  ⟨⟨by decide, by decide⟩,
    C9_duplicate_id_diverges dQ resolveW [5, 5] 5 binDup 0 0 (by decide)
      (by decide)⟩

/-- C6 counterexample: a non-empty resolved bin list that repeats a bin
makes optimizeByDistance return no waypoint list at all (the loop runs
out of any fuel equal to the list length; by C9-style reasoning no budget
suffices), so the claim as stated fails without a distinctness
assumption. -/
theorem C6_counterexample_duplicate :
    ([binDup, binDup] ≠ ([] : List GBin)) ∧
    optimizeByDistance dQ [binDup, binDup] 0 0 = none := by
  refine ⟨by decide, by decide⟩

/-- C6 (amended with distinct bin ids): the distance strategy returns a
waypoint list that is a permutation of the input bins (each input bin
exactly once, fields copied), whose order fields are 1..n positionally,
and which is a greedy nearest-neighbour tour: every waypoint is an
unvisited bin of minimum oracle distance from the current position, the
position advancing to the selected bin. -/
theorem C6_nearest_neighbor_tour (dist : DistFn) (bins : List GBin)
    (driverLat driverLng : ℚ) (hne : bins ≠ [])
    (hnd : (bins.map GBin.id).Nodup) :
    ∃ ws, optimizeByDistance dist bins driverLat driverLng = some ws ∧
      (ws.map Waypoint.binId).Perm (bins.map GBin.id) ∧
      (∀ w ∈ ws, ∃ b ∈ bins, w = mkWaypoint b w.order) ∧
      (∀ (k : Nat) (h : k < ws.length), (ws.get ⟨k, h⟩).order = k + 1) ∧
      GreedyFrom dist bins driverLat driverLng [] ws := by
  obtain ⟨rest, h1, h2, h3, h4, h5⟩ :=
    nnLoop_nodup_spec dist bins hnd bins.length driverLat driverLng [] []
      (by simp) (by simp) rfl (by simp)
  refine ⟨rest, ?_, by simpa using h2, h3, ?_, h5⟩
  · simpa [optimizeByDistance] using h1
  · intro k h
    simpa using h4 k h

/-- Witness for C6 on three distinct bins with the L1 oracle. -/
theorem C6_nearest_neighbor_tour_witness :
    (([binW2, binW1, binW3] : List GBin) ≠ [] ∧
      (([binW2, binW1, binW3].map GBin.id).Nodup)) ∧
    (∃ ws, optimizeByDistance dQ [binW2, binW1, binW3] 0 0 = some ws ∧
      (ws.map Waypoint.binId).Perm ([binW2, binW1, binW3].map GBin.id) ∧
      (∀ w ∈ ws, ∃ b ∈ [binW2, binW1, binW3], w = mkWaypoint b w.order) ∧
      (∀ (k : Nat) (h : k < ws.length), (ws.get ⟨k, h⟩).order = k + 1) ∧
      GreedyFrom dQ [binW2, binW1, binW3] 0 0 [] ws) :=
  ⟨⟨by decide, by decide⟩,
    C6_nearest_neighbor_tour dQ [binW2, binW1, binW3] 0 0 (by decide)
      (by decide)⟩

theorem fillLess_eq_true (dist : DistFn) (dl dg : ℚ) (bi bj : GBin) :
    fillLess dist dl dg bi bj = true ↔
      bj.fillLevel < bi.fillLevel ∨
        (bi.fillLevel = bj.fillLevel ∧
          dist dl dg bi.lat bi.lng < dist dl dg bj.lat bj.lng) := by
  unfold fillLess
  by_cases h : bi.fillLevel = bj.fillLevel
  · rw [if_neg (by simp [h])]
    simp [h]
  · rw [if_pos h]
    simp [h]

theorem fillSort_trans (dist : DistFn) (dl dg : ℚ) :
    ∀ a b c : GBin,
      (!(fillLess dist dl dg b a)) = true →
      (!(fillLess dist dl dg c b)) = true →
      (!(fillLess dist dl dg c a)) = true := by
  intro a b c hab hbc
  rw [Bool.not_eq_true', Bool.eq_false_iff] at hab hbc ⊢
  simp only [ne_eq, fillLess_eq_true] at hab hbc
  intro hca
  rw [fillLess_eq_true] at hca
  push_neg at hab hbc
  rcases hca with h | ⟨he, hd⟩
  · omega
  · have h1 : b.fillLevel = a.fillLevel := by omega
    have h2 : c.fillLevel = b.fillLevel := by omega
    have ha := hab.2 h1
    have hb := hbc.2 h2
    linarith

theorem fillSort_total (dist : DistFn) (dl dg : ℚ) :
    ∀ a b : GBin,
      ((!(fillLess dist dl dg b a)) || (!(fillLess dist dl dg a b))) =
        true := by
  intro a b
  rw [Bool.or_eq_true, Bool.not_eq_true', Bool.not_eq_true']
  by_contra h
  push_neg at h
  obtain ⟨h1, h2⟩ := h
  rw [Bool.ne_false_iff, fillLess_eq_true] at h1 h2
  rcases h1 with h1 | ⟨e1, d1⟩ <;> rcases h2 with h2 | ⟨e2, d2⟩
  · omega
  · omega
  · omega
  · linarith

theorem optimizeByFillLevel_length (dist : DistFn) (bins : List GBin)
    (dl dg : ℚ) :
    (optimizeByFillLevel dist bins dl dg).length = bins.length := by
  simp [optimizeByFillLevel, List.enum_length, List.length_mergeSort]

theorem optimizeByFillLevel_get (dist : DistFn) (bins : List GBin)
    (dl dg : ℚ) (k : Nat)
    (h : k < (optimizeByFillLevel dist bins dl dg).length)
    (h2 : k <
      (bins.mergeSort (fun a b => !(fillLess dist dl dg b a))).length) :
    (optimizeByFillLevel dist bins dl dg).get ⟨k, h⟩ =
      mkWaypoint
        ((bins.mergeSort (fun a b => !(fillLess dist dl dg b a))).get
          ⟨k, h2⟩) (k + 1) := by
  simp [optimizeByFillLevel, List.get_eq_getElem, List.getElem_map,
    List.getElem_enum]

/-- C7: in the fill_level strategy output, an earlier waypoint has a
strictly higher fill level than a later one, or the fill levels are equal
and the earlier waypoint is at most as far from the driver start as the
later one. -/
theorem C7_fill_level_priority (dist : DistFn) (bins : List GBin)
    (driverLat driverLng : ℚ) (i j : Nat) (hij : i < j)
    (hj : j < (optimizeByFillLevel dist bins driverLat driverLng).length) :
    ((optimizeByFillLevel dist bins driverLat driverLng).get
        ⟨i, Nat.lt_trans hij hj⟩).fillLevel >
      ((optimizeByFillLevel dist bins driverLat driverLng).get
        ⟨j, hj⟩).fillLevel ∨
    (((optimizeByFillLevel dist bins driverLat driverLng).get
        ⟨i, Nat.lt_trans hij hj⟩).fillLevel =
      ((optimizeByFillLevel dist bins driverLat driverLng).get
        ⟨j, hj⟩).fillLevel ∧
      dist driverLat driverLng
        ((optimizeByFillLevel dist bins driverLat driverLng).get
          ⟨i, Nat.lt_trans hij hj⟩).lat
        ((optimizeByFillLevel dist bins driverLat driverLng).get
          ⟨i, Nat.lt_trans hij hj⟩).lng ≤
      dist driverLat driverLng
        ((optimizeByFillLevel dist bins driverLat driverLng).get
          ⟨j, hj⟩).lat
        ((optimizeByFillLevel dist bins driverLat driverLng).get
          ⟨j, hj⟩).lng) := by
  have hi : i < (optimizeByFillLevel dist bins driverLat driverLng).length :=
    Nat.lt_trans hij hj
  have hlen : (optimizeByFillLevel dist bins driverLat driverLng).length =
      (bins.mergeSort
        (fun a b => !(fillLess dist driverLat driverLng b a))).length := by
    rw [optimizeByFillLevel_length, List.length_mergeSort]
  have hi2 : i < (bins.mergeSort
      (fun a b => !(fillLess dist driverLat driverLng b a))).length :=
    hlen ▸ hi
  have hj2 : j < (bins.mergeSort
      (fun a b => !(fillLess dist driverLat driverLng b a))).length :=
    hlen ▸ hj
  have hs := @List.sorted_mergeSort GBin
    (fun a b => !(fillLess dist driverLat driverLng b a))
    (fillSort_trans dist driverLat driverLng)
    (fillSort_total dist driverLat driverLng) bins
  have hrel := List.pairwise_iff_get.1 hs ⟨i, hi2⟩ ⟨j, hj2⟩
    (by simpa using hij)
  rw [Bool.not_eq_true', Bool.eq_false_iff] at hrel
  simp only [ne_eq, fillLess_eq_true] at hrel
  push_neg at hrel
  obtain ⟨h1, h2⟩ := hrel
  rw [optimizeByFillLevel_get dist bins driverLat driverLng i hi hi2,
    optimizeByFillLevel_get dist bins driverLat driverLng j hj hj2]
  simp only [mkWaypoint]
  rcases lt_or_eq_of_le h1 with h | h
  · exact Or.inl h
  · exact Or.inr ⟨h.symm, h2 h⟩

/-- Witness for C7 on a tie in fill level broken by distance. -/
theorem C7_fill_level_priority_witness :
    ((0 : Nat) < 1 ∧
      1 < (optimizeByFillLevel dQ [binW1, binW2, binW3] 0 0).length) ∧
    (((optimizeByFillLevel dQ [binW1, binW2, binW3] 0 0).get
        ⟨0, by simp [optimizeByFillLevel_length]⟩).fillLevel >
      ((optimizeByFillLevel dQ [binW1, binW2, binW3] 0 0).get
        ⟨1, by simp [optimizeByFillLevel_length]⟩).fillLevel ∨
    (((optimizeByFillLevel dQ [binW1, binW2, binW3] 0 0).get
        ⟨0, by simp [optimizeByFillLevel_length]⟩).fillLevel =
      ((optimizeByFillLevel dQ [binW1, binW2, binW3] 0 0).get
        ⟨1, by simp [optimizeByFillLevel_length]⟩).fillLevel ∧
      dQ 0 0
        ((optimizeByFillLevel dQ [binW1, binW2, binW3] 0 0).get
          ⟨0, by simp [optimizeByFillLevel_length]⟩).lat
        ((optimizeByFillLevel dQ [binW1, binW2, binW3] 0 0).get
          ⟨0, by simp [optimizeByFillLevel_length]⟩).lng ≤
      dQ 0 0
        ((optimizeByFillLevel dQ [binW1, binW2, binW3] 0 0).get
          ⟨1, by simp [optimizeByFillLevel_length]⟩).lat
        ((optimizeByFillLevel dQ [binW1, binW2, binW3] 0 0).get
          ⟨1, by simp [optimizeByFillLevel_length]⟩).lng)) :=
  ⟨⟨by decide, by simp [optimizeByFillLevel_length]⟩,
    C7_fill_level_priority dQ [binW1, binW2, binW3] 0 0 0 1 (by decide)
      (by simp [optimizeByFillLevel_length])⟩

/-- C8: whenever the waypoint computation completed and the external
routing call fails (modelled by external = none, covering network error,
non-OK status and empty route list alike), OptimizeRoute returns the
route with the heuristic metrics and no error; and the heuristic duration
is int((distance/30)*60) plus 2 minutes per stop. -/
theorem C8_external_failure_keeps_heuristic (dist : DistFn)
    (resolve : Nat → Option GBin) (driverLat driverLng : ℚ)
    (binIDs : List Nat) (optimizeBy : String) (ws : List Waypoint)
    (hne : (binIDs.filterMap resolve).isEmpty = false)
    (hws : strategyWaypoints dist (binIDs.filterMap resolve) driverLat
      driverLng optimizeBy = some ws) :
    OptimizeRoute dist resolve driverLat driverLng binIDs optimizeBy true
        none =
      some (Except.ok
        { waypointsList := ws,
          totalDistanceKm :=
            (calculateRouteMetrics dist driverLat driverLng ws).1,
          estimatedDurationMinutes :=
            (calculateRouteMetrics dist driverLat driverLng ws).2,
          status := "pending" }) ∧
    (calculateRouteMetrics dist driverLat driverLng ws).2 =
      ratTrunc (((calculateRouteMetrics dist driverLat driverLng ws).1 / 30)
        * 60) + 2 * ws.length := by
  constructor
  · simp [OptimizeRoute, hne, hws]
  · unfold calculateRouteMetrics
    by_cases h : ws.isEmpty
    · rw [if_pos h]
      have hnil : ws = [] := List.isEmpty_iff.1 h
      subst hnil
      simp [ratTrunc]
    · rw [if_neg h]

/-- Witness for C8: two resolved bins, distance strategy, failing
external call. -/
theorem C8_external_failure_keeps_heuristic_witness :
    (([1, 3].filterMap resolveW).isEmpty = false ∧
      strategyWaypoints dQ ([1, 3].filterMap resolveW) 0 0 "distance" =
        some wsC8) ∧
    (OptimizeRoute dQ resolveW 0 0 [1, 3] "distance" true none =
      some (Except.ok
        { waypointsList := wsC8,
          totalDistanceKm := (calculateRouteMetrics dQ 0 0 wsC8).1,
          estimatedDurationMinutes := (calculateRouteMetrics dQ 0 0 wsC8).2,
          status := "pending" }) ∧
    (calculateRouteMetrics dQ 0 0 wsC8).2 =
      ratTrunc (((calculateRouteMetrics dQ 0 0 wsC8).1 / 30) * 60) +
        2 * wsC8.length) :=
  ⟨⟨by decide, by decide⟩,
    C8_external_failure_keeps_heuristic dQ resolveW 0 0 [1, 3] "distance"
      wsC8 (by decide) (by decide)⟩
